import Mathlib

/-!
Verification of the `nationwide-export-to-bq` ETL script (`src/main.py`).

The script reads Nationwide bank-statement CSV exports, normalizes them
(account name from the summary line, currency columns to floats, the date
column to calendar dates, two derived columns), appends them to a BigQuery
table, and finally rewrites that table to its distinct-row projection.

Shallow embedding conventions:
* a source file is a `List String` of its lines (line terminators are the
  separators, not part of a line's content);
* pandas "NaN"/missing cells are `Option.none`; a `DataFrame` column is the
  `Column` variant below, tagged by its inferred dtype;
* exact rational arithmetic (`ℚ`) stands for float values — every literal the
  claims touch is exactly representable;
* Python exceptions and failed remote jobs are `Except.error`;
* `datetime.now().date()` is an explicit clock: `process_csv_file` receives
  the date sampled at its call, and the orchestration loop passes `clock i`
  to the i-th processed file, mirroring the per-call sampling in the script;
* the BigQuery table is a `List BQRow`; `SELECT DISTINCT *` is `List.dedup`.
-/

/-- A calendar date (as produced by `datetime.now().date()` or parsed from a
date string). -/
structure SimpleDate where
  day : Nat
  month : Nat
  year : Nat
deriving DecidableEq, Repr

/-- Python's `str.split(sep)` for a one-character separator: split at every
occurrence, keeping empty segments (`"".split(',') = ['']`). Structural
recursion over the characters so that proofs can evaluate it. -/
def splitOnCharAux (sep : Char) : List Char → List Char → List String
  | [], cur => [⟨cur.reverse⟩]
  | c :: rest, cur =>
      if c == sep then ⟨cur.reverse⟩ :: splitOnCharAux sep rest []
      else splitOnCharAux sep rest (c :: cur)

def splitOnChar (sep : Char) (s : String) : List String :=
  splitOnCharAux sep s.data []

/-- Value of a decimal digit string (the strings fed to it are all-digit). -/
def digitsToNat (cs : List Char) : Nat :=
  cs.foldl (fun n c => 10 * n + (c.toNat - 48)) 0

/-- Characters kept by the currency strip regex `[^0-9.]` of
`currency_to_float` (src/main.py line 52): digits and the decimal point. -/
def isNumericChar (c : Char) : Bool :=
  c.isDigit || c == '.'

/-- `series.str.replace('[^0-9.]', '', regex=True)` on one cell
(src/main.py line 52): drop every character that is not a digit or `.`. -/
def stripCurrency (s : String) : String :=
  ⟨s.data.filter isNumericChar⟩

/-- Unsigned decimal literal parsing: digits with at most one `.` and at
least one digit; the value is exact. Models the float grammar `pandas`
accepts on strings made only of digits and dots. -/
def parseDecimalString (s : String) : Option ℚ :=
  if s.data.all isNumericChar && s.data.any Char.isDigit then
    match splitOnChar '.' s with
    | [ip] => some ((digitsToNat ip.data : ℚ))
    | [ip, fp] =>
        some ((digitsToNat ip.data : ℚ) + (digitsToNat fp.data : ℚ) / 10 ^ fp.data.length)
    | _ => none
  else none

/-- One-cell model of `pd.to_numeric(..., errors='coerce')` / float literal
parsing on simple numeric strings: optional sign then a decimal literal;
anything else is `none` (pandas NaN under `coerce`). -/
def parseFloatLit (s : String) : Option ℚ :=
  match s.data with
  | '-' :: rest => (parseDecimalString ⟨rest⟩).map (fun q => -q)
  | '+' :: rest => parseDecimalString ⟨rest⟩
  | _ => parseDecimalString s

/-- Integer literal test, for pandas `int64` dtype inference. -/
def isIntLit (s : String) : Bool :=
  let t := match s.data with
    | '-' :: rest => rest
    | '+' :: rest => rest
    | cs => cs
  !t.isEmpty && t.all Char.isDigit

/-- Integer literal value (only applied where `isIntLit` holds). -/
def parseIntLit (s : String) : Int :=
  match s.data with
  | '-' :: rest => -(digitsToNat rest : Int)
  | '+' :: rest => (digitsToNat rest : Int)
  | _ => (digitsToNat s.data : Int)

/-- A pandas Series as seen by `currency_to_float`: tagged by its dtype.
`float64` cells are numbers or NaN (`none`); `object` cells are strings or
NaN; any other dtype (e.g. `int64`) carries its name and integer values. -/
inductive Column where
  | float64 (vals : List (Option ℚ))
  | object (vals : List (Option String))
  | other (dtypeName : String) (vals : List Int)
deriving DecidableEq, Repr

/-- `currency_to_float` (src/main.py lines 45-58). Returns the resulting
column together with a flag that is `true` exactly when the diagnostic
`print` of the fall-through branch ran. A `float64` column passes through;
an `object` column is stripped cell-wise to `[0-9.]` and coerced with
`errors='coerce'` (failures become NaN, never an error); any other dtype is
returned unmodified after the diagnostic. -/
def currency_to_float (currency_series : Column) : Column × Bool :=
  match currency_series with
  | Column.float64 vals => (Column.float64 vals, false)
  | Column.object vals =>
      (Column.float64 (vals.map (fun oc => oc.bind (fun s => parseFloatLit (stripCurrency s)))),
       false)
  | Column.other name vals => (Column.other name vals, true)

/-- Python `str.strip('"')`: remove every leading and trailing `"`. -/
def strip_quotes (s : String) : String :=
  ⟨((s.data.dropWhile (fun c => c == '"')).reverse.dropWhile (fun c => c == '"')).reverse⟩

/-- `extract_account_name` (src/main.py lines 41-42):
`summary_row.split(',')[1].strip('"')`. The `none` result models the
`IndexError` raised when the split has fewer than two fields. -/
def extract_account_name (summary_row : String) : Option String :=
  match (splitOnChar ',' summary_row).get? 1 with
  | some field => some (strip_quotes field)
  | none => none

/-- Month abbreviations for `%b` (strptime matches them case-insensitively). -/
def monthAbbrevs : List String :=
  ["jan", "feb", "mar", "apr", "may", "jun", "jul", "aug", "sep", "oct", "nov", "dec"]

def isLeapYear (y : Nat) : Bool :=
  (y % 4 == 0 && y % 100 != 0) || y % 400 == 0

def daysInMonth (m y : Nat) : Nat :=
  if m == 2 then (if isLeapYear y then 29 else 28)
  else if m == 4 || m == 6 || m == 9 || m == 11 then 30
  else 31

/-- One-cell model of `pd.to_datetime(_, format='%d %b %Y')`
(src/main.py line 82): a 1-2 digit day, an abbreviated month name, a 4-digit
year, separated by single spaces; the day must exist in that month. Any
other shape fails (`none`). -/
def parseDateDBY (s : String) : Option SimpleDate :=
  match splitOnChar ' ' s with
  | [d, m, y] =>
      if decide (1 ≤ d.data.length) && decide (d.data.length ≤ 2) && d.data.all Char.isDigit
          && (y.data.length == 4) && y.data.all Char.isDigit then
        match monthAbbrevs.findIdx? (fun a => a == (⟨m.data.map Char.toLower⟩ : String)) with
        | some mi =>
            let dn := digitsToNat d.data
            let yn := digitsToNat y.data
            if decide (1 ≤ dn) && decide (dn ≤ daysInMonth (mi + 1) yn) then
              some ⟨dn, mi + 1, yn⟩
            else none
        | none => none
      else none
  | _ => none

/-- Split one CSV line into fields, honouring double quotes the way the
pandas reader does on these simple exports: commas inside a quoted stretch
do not separate, quote characters themselves are not part of the field. -/
def splitCSVAux : List Char → Bool → List Char → List String
  | [], _, cur => [⟨cur.reverse⟩]
  | c :: rest, inQ, cur =>
      if c == '"' then splitCSVAux rest (!inQ) cur
      else if c == ',' && !inQ then ⟨cur.reverse⟩ :: splitCSVAux rest inQ []
      else splitCSVAux rest inQ (c :: cur)

def splitCSVLine (line : String) : List String :=
  splitCSVAux line.data false []

/-- Decidable equality of outcomes, so concrete runs can be checked by
evaluation. -/
instance instDecEqExcept {ε α : Type} [DecidableEq ε] [DecidableEq α] :
    DecidableEq (Except ε α) := fun x y =>
  match x, y with
  | Except.ok a, Except.ok b =>
      if h : a = b then isTrue (by rw [h])
      else isFalse (fun hh => by cases hh; exact h rfl)
  | Except.error a, Except.error b =>
      if h : a = b then isTrue (by rw [h])
      else isFalse (fun hh => by cases hh; exact h rfl)
  | Except.ok _, Except.error _ => isFalse (fun hh => by cases hh)
  | Except.error _, Except.ok _ => isFalse (fun hh => by cases hh)

/-- The DataFrame produced by `pd.read_csv` at the string level: the header
line's fields and each data line's fields. -/
structure ParsedCSV where
  header : List String
  rows : List (List String)
deriving DecidableEq, Repr

/-- `pd.read_csv(file_path, skiprows=4)` (src/main.py line 69): drop the
first four lines, skip blank lines (pandas `skip_blank_lines=True`), use the
next line as the header and the rest as data rows. With nothing left,
pandas raises `EmptyDataError` ("No columns to parse from file"). -/
def read_csv_skip4 (lines : List String) : Except String ParsedCSV :=
  match (lines.drop 4).filter (fun l => l != "") with
  | [] => Except.error "EmptyDataError: No columns to parse from file"
  | h :: rest => Except.ok ⟨splitCSVLine h, rest.map splitCSVLine⟩

/-- `data.columns.str.replace(' ', '_').str.lower()` on one column name
(src/main.py line 74): spaces to underscores, then lowercase, both
character-wise. -/
def renameCol (s : String) : String :=
  ⟨s.data.map (fun c => Char.toLower (if c == ' ' then '_' else c))⟩

def renameColumns (p : ParsedCSV) : ParsedCSV :=
  ⟨p.header.map renameCol, p.rows⟩

/-- Cell `i` of a data row: a missing or empty CSV field is pandas NaN. -/
def cellAt (r : List String) (i : Nat) : Option String :=
  match r.get? i with
  | some f => if f == "" then none else some f
  | none => none

/-- `data[name]` (column selection by name): the cells of the first column
whose (renamed) header equals `name`, or the `KeyError` pandas raises when
no such column exists. -/
def getColumn (p : ParsedCSV) (name : String) : Except String (List (Option String)) :=
  match p.header.findIdx? (fun h => h == name) with
  | some i => Except.ok (p.rows.map (fun r => cellAt r i))
  | none => Except.error ("KeyError: " ++ name)

/-- pandas dtype inference for a column read from CSV text: all-integer
cells with none missing give `int64`; cells that are all numeric literals
or missing give `float64`; a column with no rows, or any non-numeric cell,
stays `object`. -/
def inferColumn (cells : List (Option String)) : Column :=
  if cells.isEmpty then Column.object cells
  else if cells.all (fun oc => (oc.map isIntLit).getD false) then
    Column.other "int64" (cells.map (fun oc => parseIntLit (oc.getD "0")))
  else if cells.all (fun oc => (oc.map (fun s => (parseFloatLit s).isSome)).getD true) then
    Column.float64 (cells.map (fun oc => oc.bind parseFloatLit))
  else Column.object cells

/-- The FLOAT64 values a processed currency column contributes to the load
job. An `int64` column loads into a FLOAT64 field by widening; an `object`
column cannot appear here (`currency_to_float` never produces one), but
would fail the load job. -/
def columnFloats : Column → Except String (List (Option ℚ))
  | Column.float64 vals => Except.ok vals
  | Column.other _ vals => Except.ok (vals.map (fun z => some ((z : ℚ))))
  | Column.object _ => Except.error "load job failed: column type mismatch"

/-- `pd.to_datetime` on one cell: NaN stays NaT; a string must match the
format or the whole conversion raises. -/
def toDateCell (oc : Option String) : Except String (Option SimpleDate) :=
  match oc with
  | none => Except.ok none
  | some s =>
      match parseDateDBY s with
      | some d => Except.ok (some d)
      | none => Except.error ("time data " ++ s ++ " does not match format")

/-- `pd.to_datetime(data['date'], format='%d %b %Y')` (src/main.py line 82)
over the whole column: the first unparseable cell fails the conversion. -/
def parseDateColumn : List (Option String) → Except String (List (Option SimpleDate))
  | [] => Except.ok []
  | c :: cs =>
      match toDateCell c, parseDateColumn cs with
      | Except.ok d, Except.ok ds => Except.ok (d :: ds)
      | Except.error e, _ => Except.error e
      | _, Except.error e => Except.error e

/-- One row of the BigQuery table `nationwide_exports`, following the
8-column schema of src/main.py lines 22-31. -/
structure BQRow where
  account_name : String
  date : Option SimpleDate
  transaction_type : Option String
  description : Option String
  paid_out : Option ℚ
  paid_in : Option ℚ
  balance : Option ℚ
  date_uploaded : SimpleDate
deriving DecidableEq, Repr

/-- Zip the processed columns back into the rows the load job appends.
`account_name` and `date_uploaded` are the derived scalar columns of
src/main.py lines 70-71, broadcast to every row. -/
def assembleRows (account_name : String) (today : SimpleDate)
    (dates : List (Option SimpleDate)) (tts descs : List (Option String))
    (pouts pins bals : List (Option ℚ)) (n : Nat) : List BQRow :=
  (List.range n).map (fun i =>
    { account_name := account_name
      date := dates.getD i none
      transaction_type := tts.getD i none
      description := descs.getD i none
      paid_out := pouts.getD i none
      paid_in := pins.getD i none
      balance := bals.getD i none
      date_uploaded := today })

/-- `process_csv_file` (src/main.py lines 63-88), with the date sampled by
`datetime.now().date()` passed explicitly as `today`. Stages in source
order: account name from the first line; `read_csv(skiprows=4)`; derived
columns; column renaming; `currency_to_float` on `paid_out`, `paid_in`,
`balance`; date parsing; the load job (which needs the remaining schema
columns `transaction_type` and `description`). `Except.error` is any raised
exception or failed load job; `Except.ok` carries the appended rows. -/
def process_csv_file (lines : List String) (today : SimpleDate) : Except String (List BQRow) :=
  match extract_account_name (lines.headD "") with
  | none => Except.error "IndexError: list index out of range"
  | some account_name =>
    match read_csv_skip4 lines with
    | Except.error e => Except.error e
    | Except.ok p =>
      let q := renameColumns p
      match getColumn q "paid_out" with
      | Except.error e => Except.error e
      | Except.ok paidOutRaw =>
        match columnFloats (currency_to_float (inferColumn paidOutRaw)).1 with
        | Except.error e => Except.error e
        | Except.ok pouts =>
          match getColumn q "paid_in" with
          | Except.error e => Except.error e
          | Except.ok paidInRaw =>
            match columnFloats (currency_to_float (inferColumn paidInRaw)).1 with
            | Except.error e => Except.error e
            | Except.ok pins =>
              match getColumn q "balance" with
              | Except.error e => Except.error e
              | Except.ok balanceRaw =>
                match columnFloats (currency_to_float (inferColumn balanceRaw)).1 with
                | Except.error e => Except.error e
                | Except.ok bals =>
                  match getColumn q "date" with
                  | Except.error e => Except.error e
                  | Except.ok dateRaw =>
                    match parseDateColumn dateRaw with
                    | Except.error e => Except.error e
                    | Except.ok dates =>
                      match getColumn q "transaction_type", getColumn q "description" with
                      | Except.ok tts, Except.ok descs =>
                          Except.ok (assembleRows account_name today dates tts descs
                            pouts pins bals q.rows.length)
                      | Except.error e, _ => Except.error e
                      | _, Except.error e => Except.error e

/-- `get_table_row_count` (src/main.py lines 91-94): `SELECT COUNT(*)`. -/
def get_table_row_count (t : List BQRow) : Nat :=
  t.length

/-- `remove_duplicates` (src/main.py lines 97-115): count, rewrite the table
to `SELECT DISTINCT *` of itself, count again, and report the difference as
duplicate rows removed. Returns the new table and the reported number. -/
def remove_duplicates (t : List BQRow) : List BQRow × Int :=
  let initial_count := get_table_row_count t
  let deduped := t.dedup
  let final_count := get_table_row_count deduped
  (deduped, (initial_count : Int) - (final_count : Int))

/-- Observable steps of the module-level run (src/main.py lines 119-126):
one completed upload per processed file, and the deduplication pass. -/
inductive RunEvent where
  | upload (filename : String) (rows : List BQRow)
  | dedupRun
deriving DecidableEq, Repr

/-- The `for filename in os.listdir(...)` body over the already-filtered
files: each file is processed with the date the clock gives its call; an
exception aborts the loop (and the whole script), reported as `false`. -/
def processLoop : List (String × List String) → (Nat → SimpleDate) → Nat →
    List RunEvent × Bool
  | [], _, _ => ([], true)
  | (name, content) :: rest, clock, i =>
      match process_csv_file content (clock i) with
      | Except.ok rows =>
          let out := processLoop rest clock (i + 1)
          (RunEvent.upload name rows :: out.1, out.2)
      | Except.error _ => ([], false)

/-- Python's `str.endswith`: exact, case-sensitive suffix test. -/
def strEndsWith (s suffix : String) : Bool :=
  suffix.data.isSuffixOf s.data

/-- The `filename.endswith('.csv')` filter of src/main.py line 120 over the
directory listing (entries carry their file contents). -/
def selectedFiles (entries : List (String × List String)) : List (String × List String) :=
  entries.filter (fun e => strEndsWith e.1 ".csv")

/-- The whole module-level run: process every `.csv` entry in order, then —
only if no exception escaped the loop — call `remove_duplicates()` once
(src/main.py line 126). An uncaught exception terminates the script before
that call. -/
def orchestrate (entries : List (String × List String)) (clock : Nat → SimpleDate) :
    List RunEvent :=
  match processLoop (selectedFiles entries) clock 0 with
  | (evs, true) => evs ++ [RunEvent.dedupRun]
  | (evs, false) => evs

def isDedupEvent : RunEvent → Bool
  | RunEvent.dedupRun => true
  | RunEvent.upload _ _ => false

def isUploadEvent : RunEvent → Bool
  | RunEvent.dedupRun => false
  | RunEvent.upload _ _ => true

def countDedup (evs : List RunEvent) : Nat :=
  evs.countP isDedupEvent

def countUploads (evs : List RunEvent) : Nat :=
  evs.countP isUploadEvent

/-- Every `date_uploaded` value of every row uploaded during a run. -/
def uploadedDates (evs : List RunEvent) : List SimpleDate :=
  evs.foldr
    (fun e acc =>
      match e with
      | RunEvent.upload _ rows => rows.map (fun r => r.date_uploaded) ++ acc
      | RunEvent.dedupRun => acc)
    []

/-! ### Concrete fixtures used by witnesses and counterexamples -/

/-- A well-formed Nationwide export: summary line, three boilerplate lines,
header, one transaction row. -/
def nwFile : List String :=
  ["\"Statement\",\"My Account\",\"GBP\"",
   "\"Account Name:\",\"My Account\"",
   "\"Account Balance:\",\"100.00\"",
   "\"Available Balance:\",\"100.00\"",
   "Date,Transaction type,Description,Paid out,Paid in,Balance",
   "01 Jan 2024,Transfer,Coffee,,,"]

/-- The same export with an unparseable date in its only data row. -/
def badDateFile : List String :=
  ["\"Statement\",\"My Account\",\"GBP\"",
   "\"Account Name:\",\"My Account\"",
   "\"Account Balance:\",\"100.00\"",
   "\"Available Balance:\",\"100.00\"",
   "Date,Transaction type,Description,Paid out,Paid in,Balance",
   "BADDATE,Transfer,Coffee,,,"]

/-- A header-only export: nothing after the skipped lines and the header. -/
def headerOnlyFile : List String :=
  ["\"Statement\",\"My Account\",\"GBP\"",
   "\"Account Name:\",\"My Account\"",
   "\"Account Balance:\",\"100.00\"",
   "\"Available Balance:\",\"100.00\"",
   "Date,Transaction type,Description,Paid out,Paid in,Balance"]

def d0 : SimpleDate := ⟨5, 1, 2024⟩

/-- The row `process_csv_file nwFile d0` uploads (the empty monetary cells
become NaN/NULL, i.e. `none`). -/
def nwRow : BQRow :=
  { account_name := "My Account"
    date := some ⟨1, 1, 2024⟩
    transaction_type := some "Transfer"
    description := some "Coffee"
    paid_out := none
    paid_in := none
    balance := none
    date_uploaded := d0 }

/-! ### Helper lemmas -/

theorem assembleRows_date_uploaded (a : String) (today : SimpleDate)
    (dates : List (Option SimpleDate)) (tts descs : List (Option String))
    (pouts pins bals : List (Option ℚ)) (n : Nat) (r : BQRow)
    (hr : r ∈ assembleRows a today dates tts descs pouts pins bals n) :
    r.date_uploaded = today := by
  simp only [assembleRows, List.mem_map] at hr
  obtain ⟨i, _, rfl⟩ := hr
  rfl

/-- Inversion for a successful `process_csv_file`: every uploaded row's
`date_uploaded` is the sampled date, and the date column was reached and
fully parsed. -/
theorem process_ok_inv (lines : List String) (today : SimpleDate) (rows : List BQRow)
    (h : process_csv_file lines today = Except.ok rows) :
    (∀ r ∈ rows, r.date_uploaded = today) ∧
      ∃ p dateRaw dates, read_csv_skip4 lines = Except.ok p ∧
        getColumn (renameColumns p) "date" = Except.ok dateRaw ∧
        parseDateColumn dateRaw = Except.ok dates := by
  unfold process_csv_file at h
  cases hacct : extract_account_name (lines.headD "") with
  | none => simp only [hacct] at h; exact Except.noConfusion h
  | some a =>
  simp only [hacct] at h
  cases hread : read_csv_skip4 lines with
  | error e => simp only [hread] at h; exact Except.noConfusion h
  | ok p =>
  simp only [hread] at h
  cases h1 : getColumn (renameColumns p) "paid_out" with
  | error e => simp only [h1] at h; exact Except.noConfusion h
  | ok paidOutRaw =>
  simp only [h1] at h
  cases h2 : columnFloats (currency_to_float (inferColumn paidOutRaw)).1 with
  | error e => simp only [h2] at h; exact Except.noConfusion h
  | ok pouts =>
  simp only [h2] at h
  cases h3 : getColumn (renameColumns p) "paid_in" with
  | error e => simp only [h3] at h; exact Except.noConfusion h
  | ok paidInRaw =>
  simp only [h3] at h
  cases h4 : columnFloats (currency_to_float (inferColumn paidInRaw)).1 with
  | error e => simp only [h4] at h; exact Except.noConfusion h
  | ok pins =>
  simp only [h4] at h
  cases h5 : getColumn (renameColumns p) "balance" with
  | error e => simp only [h5] at h; exact Except.noConfusion h
  | ok balanceRaw =>
  simp only [h5] at h
  cases h6 : columnFloats (currency_to_float (inferColumn balanceRaw)).1 with
  | error e => simp only [h6] at h; exact Except.noConfusion h
  | ok bals =>
  simp only [h6] at h
  cases h7 : getColumn (renameColumns p) "date" with
  | error e => simp only [h7] at h; exact Except.noConfusion h
  | ok dateRaw =>
  simp only [h7] at h
  cases h8 : parseDateColumn dateRaw with
  | error e => simp only [h8] at h; exact Except.noConfusion h
  | ok dates =>
  simp only [h8] at h
  cases h9 : getColumn (renameColumns p) "transaction_type" with
  | error e => simp only [h9] at h; exact Except.noConfusion h
  | ok tts =>
  simp only [h9] at h
  cases h10 : getColumn (renameColumns p) "description" with
  | error e => simp only [h10] at h; exact Except.noConfusion h
  | ok descs =>
  simp only [h10, Except.ok.injEq] at h
  refine ⟨?_, p, dateRaw, dates, rfl, h7, h8⟩
  intro r hr
  rw [← h] at hr
  exact assembleRows_date_uploaded _ _ _ _ _ _ _ _ _ _ hr

/-- A fully parsed date column has no unparseable present cell. -/
theorem parseDateColumn_ok_cells (cells : List (Option String))
    (dates : List (Option SimpleDate)) (h : parseDateColumn cells = Except.ok dates)
    (s : String) (hs : some s ∈ cells) : parseDateDBY s ≠ none := by
  induction cells generalizing dates with
  | nil => cases hs
  | cons c cs ih =>
    unfold parseDateColumn at h
    cases hc : toDateCell c with
    | error e => simp only [hc] at h; exact Except.noConfusion h
    | ok d =>
    simp only [hc] at h
    cases hcs : parseDateColumn cs with
    | error e => simp only [hcs] at h; exact Except.noConfusion h
    | ok ds =>
    simp only [hcs] at h
    cases hs with
    | head =>
        intro hbad
        unfold toDateCell at hc
        simp only [hbad] at hc
        exact Except.noConfusion hc
    | tail _ hmem => exact ih ds hcs hmem

/-! ### Claims -/

/-- C1: on a textual currency column, "£1,234.56" normalizes to 1234.56 and
"-£12.34" to 12.34; in general the strip rule keeps only digits and the
decimal point, so a leading minus sign is always dropped and every negative
textual amount becomes the corresponding positive number. -/
theorem currency_normalizer_drops_sign :
    currency_to_float (Column.object [some "£1,234.56", some "-£12.34"]) =
      (Column.float64 [some ((123456 : ℚ) / 100), some ((1234 : ℚ) / 100)], false) ∧
    ∀ l : List Char, stripCurrency ⟨'-' :: l⟩ = stripCurrency ⟨l⟩ := by
  constructor
  · simp only [currency_to_float, List.map, Option.bind]
    refine Prod.ext ?_ rfl
    have h1 : parseFloatLit (stripCurrency "£1,234.56") = some ((123456 : ℚ) / 100) := by
      simp [parseFloatLit, stripCurrency, parseDecimalString, splitOnChar, splitOnCharAux,
        digitsToNat, isNumericChar]
      norm_num
    have h2 : parseFloatLit (stripCurrency "-£12.34") = some ((1234 : ℚ) / 100) := by
      simp [parseFloatLit, stripCurrency, parseDecimalString, splitOnChar, splitOnCharAux,
        digitsToNat, isNumericChar]
      norm_num
    rw [h1, h2]
  · intro l
    simp [stripCurrency, List.filter_cons, show isNumericChar '-' = false from rfl]

/-- C2: the extracted account name is the second comma-separated field of
the first line with surrounding double quotes stripped, whatever the rest of
the line holds; with fewer than two comma-separated fields the extraction
raises instead of returning a value, and the whole file's processing fails. -/
theorem extract_account_name_second_field :
    (∀ line : String, 2 ≤ (splitOnChar ',' line).length →
        extract_account_name line =
          some (strip_quotes ((splitOnChar ',' line).getD 1 ""))) ∧
    (∀ line : String, (splitOnChar ',' line).length < 2 →
        extract_account_name line = none) ∧
    (∀ (lines : List String) (today : SimpleDate),
        extract_account_name (lines.headD "") = none →
        ∃ e, process_csv_file lines today = Except.error e) := by
  refine ⟨?_, ?_, ?_⟩
  · intro line h
    unfold extract_account_name
    have h2 : (splitOnChar ',' line).get? 1 = some ((splitOnChar ',' line).getD 1 "") := by
      rw [List.getD_eq_getElem?_getD, List.get?_eq_getElem?]
      cases hx : (splitOnChar ',' line)[1]? with
      | none => rw [List.getElem?_eq_none_iff] at hx; omega
      | some v => rfl
    rw [h2]
  · intro line h
    unfold extract_account_name
    have h2 : (splitOnChar ',' line).get? 1 = none := by
      rw [List.get?_eq_getElem?, List.getElem?_eq_none_iff]; omega
    rw [h2]
  · intro lines today h
    unfold process_csv_file
    simp only [h]
    exact ⟨_, rfl⟩

theorem extract_account_name_second_field_witness :
    extract_account_name "\"Statement\",\"My Account\",\"GBP\"" = some "My Account" := by
  have h := extract_account_name_second_field.1
    "\"Statement\",\"My Account\",\"GBP\"" (by decide)
  rw [h]
  decide

/-- C3: running `remove_duplicates` twice with no intervening write is
idempotent — the second run leaves the row count unchanged and reports
(first count − second count) = 0 rows removed. -/
theorem remove_duplicates_idempotent :
    ∀ t : List BQRow,
      (remove_duplicates (remove_duplicates t).1).1.length =
        (remove_duplicates t).1.length ∧
      (remove_duplicates (remove_duplicates t).1).2 = 0 := by
  intro t
  constructor
  · simp [remove_duplicates, List.dedup_idem]
  · simp [remove_duplicates, get_table_row_count, List.dedup_idem]

/-- C7: `currency_to_float` raises on no input column: a numeric column
passes through, a textual column is stripped and coerced cell-wise with
parse failures becoming NaN (`none`) rather than an error, and a column of
any other dtype is returned unmodified with the diagnostic flag set. -/
theorem currency_normalizer_never_raises :
    (∀ vals, currency_to_float (Column.float64 vals) = (Column.float64 vals, false)) ∧
    (∀ vals, currency_to_float (Column.object vals) =
        (Column.float64
          (vals.map (fun oc => oc.bind (fun s => parseFloatLit (stripCurrency s)))),
         false)) ∧
    (∀ name vals, currency_to_float (Column.other name vals) =
        (Column.other name vals, true)) ∧
    (∀ s : String, parseFloatLit (stripCurrency s) = none →
        (currency_to_float (Column.object [some s])).1 = Column.float64 [none]) := by
  refine ⟨fun vals => rfl, fun vals => rfl, fun name vals => rfl, ?_⟩
  intro s h
  simp [currency_to_float, h]

theorem currency_normalizer_never_raises_witness :
    (currency_to_float (Column.object [some "N/A"])).1 = Column.float64 [none] :=
  currency_normalizer_never_raises.2.2.2 "N/A" (by decide)

/-- C10: a single `remove_duplicates` run never increases the table's row
count, and the reported rows-removed number is never negative. -/
theorem remove_duplicates_never_increases :
    ∀ t : List BQRow,
      (remove_duplicates t).1.length ≤ t.length ∧ 0 ≤ (remove_duplicates t).2 := by
  intro t
  have h := (List.dedup_sublist t).length_le
  refine ⟨h, ?_⟩
  simp only [remove_duplicates, get_table_row_count]
  omega

/-! ### Orchestration lemmas -/

theorem countDedup_processLoop (files : List (String × List String))
    (clock : Nat → SimpleDate) (i : Nat) :
    countDedup (processLoop files clock i).1 = 0 := by
  induction files generalizing i with
  | nil => rfl
  | cons f rest ih =>
    obtain ⟨name, content⟩ := f
    unfold processLoop
    cases process_csv_file content (clock i) with
    | ok rows =>
        simp only [countDedup, List.countP_cons, isDedupEvent]
        have := ih (i + 1)
        simp only [countDedup] at this
        simp [this]
    | error e => rfl

theorem upload_mem_processLoop (files : List (String × List String))
    (clock : Nat → SimpleDate) (i : Nat) (name : String) (rows : List BQRow)
    (h : RunEvent.upload name rows ∈ (processLoop files clock i).1) :
    ∃ content, (name, content) ∈ files := by
  induction files generalizing i with
  | nil => cases h
  | cons f rest ih =>
    obtain ⟨n, c⟩ := f
    unfold processLoop at h
    cases hpf : process_csv_file c (clock i) with
    | error e => simp only [hpf] at h; cases h
    | ok rows2 =>
        simp only [hpf] at h
        cases h with
        | head => exact ⟨c, List.mem_cons_self _ _⟩
        | tail _ hmem =>
            obtain ⟨content, hc⟩ := ih (i + 1) hmem
            exact ⟨content, List.mem_cons_of_mem _ hc⟩

theorem uploadedDates_append_dedup (evs : List RunEvent) :
    uploadedDates (evs ++ [RunEvent.dedupRun]) = uploadedDates evs := by
  simp [uploadedDates, List.foldr_append]

theorem uploadedDates_processLoop (files : List (String × List String))
    (clock : Nat → SimpleDate) (d : SimpleDate) (hc : ∀ j, clock j = d) (i : Nat) :
    ∀ x ∈ uploadedDates (processLoop files clock i).1, x = d := by
  induction files generalizing i with
  | nil => intro x hx; cases hx
  | cons f rest ih =>
    obtain ⟨n, c⟩ := f
    intro x hx
    unfold processLoop at hx
    cases hpf : process_csv_file c (clock i) with
    | error e => simp only [hpf] at hx; cases hx
    | ok rows =>
        simp only [hpf, uploadedDates, List.foldr_cons] at hx
        rw [List.mem_append] at hx
        cases hx with
        | inl hmem =>
            rw [List.mem_map] at hmem
            obtain ⟨r, hr, rfl⟩ := hmem
            have hd := (process_ok_inv c (clock i) rows hpf).1 r hr
            rw [hd, hc i]
        | inr hmem => exact ih (i + 1) x hmem

/-! ### Claims about the run (C4, C5, C9) -/

def abortEntries : List (String × List String) := [("bad.csv", [])]

def clock0 : Nat → SimpleDate := fun _ => d0

/-- C4 counterexample: a run that aborts on a fatal error while processing
`bad.csv` (its summary line has no second field) terminates before line 126
of src/main.py, so the Deduplicator is invoked zero times, not once. -/
theorem dedup_skipped_on_abort :
    countDedup (orchestrate abortEntries clock0) ≠ 1 := by decide

/-- C4 (amended): if the processing loop completes without a fatal error,
the Deduplicator runs exactly once, after all uploads; if the loop aborts on
its first fatal error the Deduplicator is never invoked; with zero `.csv`
entries the run performs zero uploads and still runs the Deduplicator once. -/
theorem orchestrate_dedup_once_unless_abort
    (entries : List (String × List String)) (clock : Nat → SimpleDate) :
    ((processLoop (selectedFiles entries) clock 0).2 = true →
        orchestrate entries clock =
          (processLoop (selectedFiles entries) clock 0).1 ++ [RunEvent.dedupRun] ∧
        countDedup (orchestrate entries clock) = 1) ∧
    ((processLoop (selectedFiles entries) clock 0).2 = false →
        countDedup (orchestrate entries clock) = 0) ∧
    (selectedFiles entries = [] →
        orchestrate entries clock = [RunEvent.dedupRun] ∧
        countUploads (orchestrate entries clock) = 0 ∧
        countDedup (orchestrate entries clock) = 1) := by
  have hzero := countDedup_processLoop (selectedFiles entries) clock 0
  refine ⟨?_, ?_, ?_⟩
  · intro h
    cases hpl : processLoop (selectedFiles entries) clock 0 with
    | mk evs completed =>
        rw [hpl] at h
        replace h : completed = true := h
        subst h
        rw [hpl] at hzero
        replace hzero : countDedup evs = 0 := hzero
        have horch : orchestrate entries clock = evs ++ [RunEvent.dedupRun] := by
          unfold orchestrate
          rw [hpl]
        refine ⟨horch, ?_⟩
        rw [horch]
        simp only [countDedup, List.countP_append] at hzero ⊢
        rw [hzero]
        rfl
  · intro h
    cases hpl : processLoop (selectedFiles entries) clock 0 with
    | mk evs completed =>
        rw [hpl] at h
        replace h : completed = false := h
        subst h
        rw [hpl] at hzero
        replace hzero : countDedup evs = 0 := hzero
        have horch : orchestrate entries clock = evs := by
          unfold orchestrate
          rw [hpl]
        rw [horch]
        exact hzero
  · intro h
    have horch : orchestrate entries clock = [RunEvent.dedupRun] := by
      unfold orchestrate
      rw [h]
      rfl
    rw [horch]
    refine ⟨rfl, rfl, rfl⟩

theorem orchestrate_dedup_once_unless_abort_witness :
    orchestrate [("notes.txt", nwFile)] clock0 = [RunEvent.dedupRun] ∧
    countUploads (orchestrate [("notes.txt", nwFile)] clock0) = 0 ∧
    countDedup (orchestrate [("notes.txt", nwFile)] clock0) = 1 :=
  (orchestrate_dedup_once_unless_abort [("notes.txt", nwFile)] clock0).2.2 (by decide)

def run2entries : List (String × List String) := [("a.csv", nwFile), ("b.csv", nwFile)]

def clock2 : Nat → SimpleDate := fun i => ⟨i + 1, 1, 2024⟩

/-- C5 counterexample: `datetime.now().date()` is evaluated inside
`process_csv_file`, once per file (src/main.py line 71). In a run whose
clock crosses midnight between two files, the uploaded rows carry two
different `date_uploaded` values, so no single fixed value is shared by the
whole batch. -/
theorem date_uploaded_varies_across_files :
    ¬ ∃ d : SimpleDate,
        ∀ x ∈ uploadedDates (orchestrate run2entries clock2), x = d := by
  intro hex
  obtain ⟨d, hall⟩ := hex
  have hv : uploadedDates (orchestrate run2entries clock2) =
      [⟨1, 1, 2024⟩, ⟨2, 1, 2024⟩] := by decide
  rw [hv] at hall
  have h1 := hall ⟨1, 1, 2024⟩ (by simp)
  have h2 := hall ⟨2, 1, 2024⟩ (by simp)
  rw [← h1] at h2
  exact absurd h2 (by decide)

/-- C5 (amended): `date_uploaded` is sampled once per file, so within a
single file every row shares the date of that file's processing; the whole
batch shares one fixed value whenever the clock date does not change during
the run (e.g. a run within one day). -/
theorem date_uploaded_sampled_per_file :
    (∀ (lines : List String) (today : SimpleDate) (rows : List BQRow) (r : BQRow),
        process_csv_file lines today = Except.ok rows → r ∈ rows →
        r.date_uploaded = today) ∧
    (∀ (entries : List (String × List String)) (clock : Nat → SimpleDate)
        (d : SimpleDate), (∀ i, clock i = d) →
        ∀ x ∈ uploadedDates (orchestrate entries clock), x = d) := by
  constructor
  · intro lines today rows r h hr
    exact (process_ok_inv lines today rows h).1 r hr
  · intro entries clock d hc x hx
    unfold orchestrate at hx
    cases hpl : processLoop (selectedFiles entries) clock 0 with
    | mk evs completed =>
        rw [hpl] at hx
        have hloop := uploadedDates_processLoop (selectedFiles entries) clock d hc 0
        rw [hpl] at hloop
        cases completed with
        | true =>
            simp only at hx
            rw [uploadedDates_append_dedup] at hx
            exact hloop x hx
        | false =>
            simp only at hx
            exact hloop x hx

theorem date_uploaded_sampled_per_file_witness :
    nwRow.date_uploaded = d0 :=
  date_uploaded_sampled_per_file.1 nwFile d0 [nwRow] nwRow (by decide) (by simp)

/-- C9: the `.csv` filter is exact and case-sensitive: an entry is selected
for processing iff its name ends in the lowercase string ".csv"; every
upload event of a run carries such a name; a name ending in ".CSV" fails
the test (and is therefore skipped). -/
theorem csv_filter_case_sensitive :
    (∀ (entries : List (String × List String)) (e : String × List String),
        e ∈ selectedFiles entries ↔ e ∈ entries ∧ strEndsWith e.1 ".csv" = true) ∧
    (∀ (entries : List (String × List String)) (clock : Nat → SimpleDate)
        (name : String) (rows : List BQRow),
        RunEvent.upload name rows ∈ orchestrate entries clock →
        strEndsWith name ".csv" = true) ∧
    (strEndsWith "export.CSV" ".csv" = false ∧ strEndsWith "export.csv" ".csv" = true) := by
  refine ⟨?_, ?_, by decide⟩
  · intro entries e
    exact List.mem_filter
  · intro entries clock name rows h
    unfold orchestrate at h
    cases hpl : processLoop (selectedFiles entries) clock 0 with
    | mk evs completed =>
        rw [hpl] at h
        have hup : RunEvent.upload name rows ∈ evs → strEndsWith name ".csv" = true := by
          intro hmem
          have hmem2 : RunEvent.upload name rows ∈ (processLoop (selectedFiles entries) clock 0).1 := by
            rw [hpl]
            exact hmem
          obtain ⟨content, hcmem⟩ :=
            upload_mem_processLoop (selectedFiles entries) clock 0 name rows hmem2
          have := (List.mem_filter).mp hcmem
          exact this.2
        cases completed with
        | true =>
            simp only at h
            rw [List.mem_append] at h
            cases h with
            | inl hmem => exact hup hmem
            | inr hmem => simp at hmem
        | false =>
            simp only at h
            exact hup h

theorem csv_filter_case_sensitive_witness :
    strEndsWith "a.csv" ".csv" = true :=
  csv_filter_case_sensitive.2.1 [("a.csv", nwFile)] clock0 "a.csv" [nwRow] (by decide)

/-- C6: if the raw date column of a Source File contains a present cell
that does not match the `%d %b %Y` format, `process_csv_file` fails as a
whole for that file: no partial record set is produced and no rows are
uploaded. -/
theorem process_fails_on_bad_date (lines : List String) (today : SimpleDate)
    (p : ParsedCSV) (cells : List (Option String)) (s : String)
    (hread : read_csv_skip4 lines = Except.ok p)
    (hcol : getColumn (renameColumns p) "date" = Except.ok cells)
    (hmem : some s ∈ cells) (hbad : parseDateDBY s = none) :
    ∃ e, process_csv_file lines today = Except.error e := by
  cases hp : process_csv_file lines today with
  | error e => exact ⟨e, rfl⟩
  | ok rows =>
    exfalso
    obtain ⟨-, p2, dateRaw, dates, hread2, hcol2, hparse⟩ :=
      process_ok_inv lines today rows hp
    rw [hread] at hread2
    injection hread2 with hp2
    subst hp2
    rw [hcol] at hcol2
    injection hcol2 with hcells
    subst hcells
    exact parseDateColumn_ok_cells cells dates hparse s hmem hbad

theorem process_fails_on_bad_date_witness :
    ∃ e, process_csv_file badDateFile d0 = Except.error e :=
  process_fails_on_bad_date badDateFile d0
    ⟨["Date", "Transaction type", "Description", "Paid out", "Paid in", "Balance"],
     [["BADDATE", "Transfer", "Coffee", "", "", ""]]⟩
    [some "BADDATE"] "BADDATE" (by decide) (by decide) (by decide) (by decide)

/-- C8 counterexample: `nwFile` has two lines after the four skipped rows
(the header and one data line — so at most 4 "data lines after the skipped
rows" under any reading), yet extraction yields a record set of one row,
not an empty one. -/
theorem few_data_lines_yield_nonempty :
    (nwFile.drop 4).length ≤ 4 ∧
    process_csv_file nwFile d0 = Except.ok [nwRow] ∧
    ([nwRow] : List BQRow).length ≠ 0 := by
  refine ⟨by decide, by decide, by decide⟩

theorem getColumn_empty_rows (header : List String) (c : String)
    (h : (header.findIdx? (fun x => x == c)).isSome = true) :
    getColumn ⟨header, []⟩ c = Except.ok [] := by
  obtain ⟨i, hi⟩ := Option.isSome_iff_exists.mp h
  simp only [getColumn, hi, List.map_nil]

/-- C8 (amended): a Source File whose content after the four skipped rows is
exactly the header line (no data lines at all) yields an empty Normalized
Record Set — zero rows uploaded and no error — provided the summary line
parses and the header carries the expected columns. (With four or fewer
lines in the whole file, or with data rows present, the original claim
fails; see the counterexample.) -/
theorem header_only_yields_empty (lines : List String) (today : SimpleDate)
    (a hdr : String)
    (hacct : extract_account_name (lines.headD "") = some a)
    (h5 : (lines.drop 4).filter (fun l => l != "") = [hdr])
    (hpo : (((splitCSVLine hdr).map renameCol).findIdx? (fun x => x == "paid_out")).isSome = true)
    (hpi : (((splitCSVLine hdr).map renameCol).findIdx? (fun x => x == "paid_in")).isSome = true)
    (hba : (((splitCSVLine hdr).map renameCol).findIdx? (fun x => x == "balance")).isSome = true)
    (hda : (((splitCSVLine hdr).map renameCol).findIdx? (fun x => x == "date")).isSome = true)
    (htt : (((splitCSVLine hdr).map renameCol).findIdx? (fun x => x == "transaction_type")).isSome = true)
    (hde : (((splitCSVLine hdr).map renameCol).findIdx? (fun x => x == "description")).isSome = true) :
    process_csv_file lines today = Except.ok [] := by
  have hread : read_csv_skip4 lines = Except.ok ⟨splitCSVLine hdr, []⟩ := by
    unfold read_csv_skip4
    rw [h5]
    rfl
  have hc1 : getColumn (renameColumns ⟨splitCSVLine hdr, []⟩) "paid_out" = Except.ok [] :=
    getColumn_empty_rows _ _ hpo
  have hc2 : getColumn (renameColumns ⟨splitCSVLine hdr, []⟩) "paid_in" = Except.ok [] :=
    getColumn_empty_rows _ _ hpi
  have hc3 : getColumn (renameColumns ⟨splitCSVLine hdr, []⟩) "balance" = Except.ok [] :=
    getColumn_empty_rows _ _ hba
  have hc4 : getColumn (renameColumns ⟨splitCSVLine hdr, []⟩) "date" = Except.ok [] :=
    getColumn_empty_rows _ _ hda
  have hc5 : getColumn (renameColumns ⟨splitCSVLine hdr, []⟩) "transaction_type" = Except.ok [] :=
    getColumn_empty_rows _ _ htt
  have hc6 : getColumn (renameColumns ⟨splitCSVLine hdr, []⟩) "description" = Except.ok [] :=
    getColumn_empty_rows _ _ hde
  have hcur : columnFloats (currency_to_float (inferColumn ([] : List (Option String)))).1 =
      Except.ok [] := rfl
  have hdate : parseDateColumn ([] : List (Option String)) = Except.ok [] := rfl
  unfold process_csv_file
  simp only [hacct, hread, hc1, hc2, hc3, hc4, hc5, hc6, hcur, hdate]
  rfl

theorem header_only_yields_empty_witness :
    process_csv_file headerOnlyFile d0 = Except.ok [] :=
  header_only_yields_empty headerOnlyFile d0 "My Account"
    "Date,Transaction type,Description,Paid out,Paid in,Balance"
    (by decide) (by decide) (by decide) (by decide) (by decide) (by decide)
    (by decide) (by decide)
